import Mathlib

/-!
Verification development for the query-resolution pipeline of the
Search_Engine_Chat_Bot repository.

The Python sources are shallowly embedded:
pure string manipulation (src/utils/helpers.py) becomes executable Lean
functions on `List Char` / `String`; every external call (LLM chains,
search engines, the ReAct agent, page fetching) is an oracle parameter
that may either return an arbitrary value or raise (modelled with
`Except` or a dedicated inductive), so theorems quantify over every
possible behaviour of the unreliable collaborators.

Modelling conventions:
- Python `str` is modelled as `String` (a list of unicode code points);
  slicing such as `[:50]` is `List.take` on the code points.
- Python truthiness of a string is emptiness; of a list, emptiness;
  `dict.get(k, d)` becomes `Option.getD`.
- `str.strip()` and the regex class `\s` use the Python whitespace set
  (`pyIsSpace` below).
- `str.upper()` / `str.lower()` are modelled per ASCII character
  (`Char.toUpper` / `Char.toLower`); the literals compared against
  (`NO_SEARCH`, `serpapi`, ...) are ASCII, so this is faithful there.
- `urllib.parse.urlparse` is modelled by `urlSchemeOf` / `urlNetlocOf`:
  scheme is the part before the first colon when it is a wellformed
  scheme token, netloc the part after `//` up to the next `/?#`.
  The `ValueError` raised on bracketed hosts is modelled conservatively
  by `urlparseRaises` (any bracket in the netloc); the search flows of
  this repository never produce bracketed IPv6 hosts.
-/

/-- Python whitespace: the set accepted by `str.isspace`, `str.strip()`
and the regex class `\s` in unicode mode. -/
def pyIsSpace (c : Char) : Bool :=
  ([32, 9, 10, 13, 11, 12, 28, 29, 30, 31, 133, 160, 5760,
    8192, 8193, 8194, 8195, 8196, 8197, 8198, 8199, 8200, 8201, 8202,
    8232, 8233, 8239, 8287, 12288]).contains c.toNat

/-- Strip Python whitespace from both ends of a character list
(`str.strip()`). -/
def pyStripList (l : List Char) : List Char :=
  ((l.dropWhile pyIsSpace).reverse.dropWhile pyIsSpace).reverse

/-- `str.strip()` on `String`. -/
def pyStrip (s : String) : String :=
  String.mk (pyStripList s.data)

/-- `str.upper()` (ASCII model). -/
def pyUpper (s : String) : String :=
  String.mk (s.data.map Char.toUpper)

/-- Python slicing `s[:n]` (by code points). -/
def strTake (n : Nat) (s : String) : String :=
  String.mk (s.data.take n)

/-- `sep.join(parts)`. -/
def joinSep (sep : String) : List String → String
  | [] => ""
  | [x] => x
  | x :: y :: r => x ++ sep ++ joinSep sep (y :: r)

/-- Does the list start with the given pattern (plain characters)? -/
def listStartsWith : List Char → List Char → Bool
  | _, [] => true
  | [], _ :: _ => false
  | c :: r, d :: p => c = d && listStartsWith r p

/-- Case-insensitive prefix test (ASCII case folding), modelling
`re.IGNORECASE` on an ASCII literal pattern. -/
def startsWithCI : List Char → List Char → Bool
  | _, [] => true
  | [], _ :: _ => false
  | c :: r, d :: p => (Char.toLower c = Char.toLower d) && startsWithCI r p

/-- Python substring containment `needle in hay`. -/
def containsSub : List Char → List Char → Bool
  | [], n => n.isEmpty
  | c :: r, n => listStartsWith (c :: r) n || containsSub r n

/-- `needle in hay` on `String`. -/
def strContains (hay needle : String) : Bool :=
  containsSub hay.data needle.data

/-- Order-preserving deduplication, the semantics of
`list(dict.fromkeys(xs))`. -/
def dedupeKeepFirstAux {α : Type} [DecidableEq α] (seen : List α) : List α → List α
  | [] => []
  | x :: r =>
    if x ∈ seen then dedupeKeepFirstAux seen r
    else x :: dedupeKeepFirstAux (x :: seen) r

/-- `list(dict.fromkeys(xs))`: keep the first occurrence of each element. -/
def dedupeKeepFirst {α : Type} [DecidableEq α] (l : List α) : List α :=
  dedupeKeepFirstAux [] l

/-!
## URL trailing-junk cleanup (helpers.py lines 113-127)

The two substitutions
`trailing_junk_regex = ((\)?\s*(?:에서|이?와|이?과|으?로|의|이|가|은|는)?\s*[.,;ати"]*)+$`
and `simple_trailing_junk_regex = [)\s.,;...]+$` jointly delete, from the
end of the candidate URL, the longest suffix that decomposes into a
sequence of junk tokens: a closing paren, a whitespace character, one of
the punctuation characters, or one of the Korean particles
에서/이와/와/이과/과/으로/로/의/이/가/은/는.  (Every unit of the repeated
group is a concatenation of such tokens and each token is matchable by a
unit on its own, so the regex language is exactly the token
concatenations; the second regex only removes characters that are
already single tokens of the first, hence is a no-op after it.)
We strip greedily from the end of the reversed list, trying the reversed
two-character particles first; since the only two-character token whose
first character is itself a token is 으로 (로 is a token but no token
starts with 으), greedy longest-token-first stripping computes exactly
the longest decomposable suffix. -/

/-- Single-character junk tokens: `)`, the punctuation class `[.,;'"]`,
whitespace, and the one-syllable particles of the alternation. -/
def junkChar (c : Char) : Bool :=
  c = ')' || c = '.' || c = ',' || c = ';' || c.toNat = 39 || c = '"' ||
  pyIsSpace c ||
  c = '와' || c = '과' || c = '로' || c = '의' || c = '이' || c = '가' ||
  c = '은' || c = '는'

/-- Two-character particles, seen reversed (we strip from the end):
에서, 으로, 이와, 이과. -/
def junkPairRev (c1 c2 : Char) : Bool :=
  (c1 = '서' && c2 = '에') || (c1 = '로' && c2 = '으') ||
  (c1 = '와' && c2 = '이') || (c1 = '과' && c2 = '이')

/-- Strip junk tokens greedily from the front of the reversed URL. -/
def stripJunkRev : List Char → List Char
  | [] => []
  | [c] => if junkChar c then [] else [c]
  | c1 :: c2 :: r =>
    if junkPairRev c1 c2 then stripJunkRev r
    else if junkChar c1 then stripJunkRev (c2 :: r)
    else c1 :: c2 :: r

/-- Delete the longest junk suffix (the combined effect of the two
trailing-junk substitutions of helpers.py lines 115-127). -/
def stripJunkSuffix (l : List Char) : List Char :=
  (stripJunkRev l.reverse).reverse

/-- The full per-URL cleanup of helpers.py lines 124-127:
`link.strip()` followed by the two trailing-junk substitutions. -/
def cleanUrl (l : List Char) : List Char :=
  stripJunkSuffix (pyStripList l)

/-!
## urlparse model (scheme and netloc truthiness, helpers.py lines 129-135)
-/

/-- Characters allowed in a URL scheme after the leading letter. -/
def schemeChar (c : Char) : Bool :=
  c.isAlphanum || c = '+' || c = '-' || c = '.'

/-- Split off the scheme as `urllib.parse.urlparse` does: the part
before the first `:` when nonempty, letter-led and scheme-charred. -/
def urlSplitScheme (s : List Char) : List Char × List Char :=
  let p := s.takeWhile (fun c => c ≠ ':')
  if p.length < s.length && !p.isEmpty &&
      (match p with | c :: _ => c.isAlpha | [] => false) && p.all schemeChar then
    (p.map Char.toLower, s.drop (p.length + 1))
  else ([], s)

/-- `urlparse(s).scheme` (lowercased; empty when absent). -/
def urlSchemeOf (s : List Char) : List Char :=
  (urlSplitScheme s).1

/-- `urlparse(s).netloc`: after `//`, up to the next `/`, `?` or `#`. -/
def urlNetlocOf (s : List Char) : List Char :=
  match (urlSplitScheme s).2 with
  | '/' :: '/' :: r => r.takeWhile (fun c => c ≠ '/' && c ≠ '?' && c ≠ '#')
  | _ => []

/-- `all([result.scheme, result.netloc])`: both parts truthy. -/
def urlValid (s : List Char) : Bool :=
  !(urlSchemeOf s).isEmpty && !(urlNetlocOf s).isEmpty

/-- Conservative model of the `ValueError` raised by `urlparse` on
bracketed netlocs (helpers.py lines 134-135 catch it and drop the
link): any bracket in the netloc. -/
def urlparseRaises (s : List Char) : Bool :=
  (urlNetlocOf s).contains '[' || (urlNetlocOf s).contains ']'

/-!
## Link extraction (helpers.py lines 104-110)

`markdown_links = re.findall(r"\[.*?\]\((https?://.*?)\)", observation)`
and
`plain_links = re.findall(r"(?<!\]\()(https?://[^\s\"'<>]+)", observation)`
are embedded as left-to-right, non-overlapping scanners.  The dot does
not match a newline (no DOTALL); the lazy `.*?` groups are realised by
taking the earliest position at which the rest of the pattern matches,
with backtracking to later `](` candidates when the URL part fails.
-/

/-- Match the literal `https?://` at the front. -/
def matchHttpScheme : List Char → Option (List Char × List Char)
  | 'h' :: 't' :: 't' :: 'p' :: 's' :: ':' :: '/' :: '/' :: r =>
    some (['h', 't', 't', 'p', 's', ':', '/', '/'], r)
  | 'h' :: 't' :: 't' :: 'p' :: ':' :: '/' :: '/' :: r =>
    some (['h', 't', 't', 'p', ':', '/', '/'], r)
  | _ => none

/-- Lazy `.*?\)` inside the markdown pattern: collect characters up to
the first `)`, failing on a newline or the end of input. -/
def mdTakeUrl (fuel : Nat) (acc : List Char) : List Char → Option (List Char × List Char)
  | ')' :: r => some (acc.reverse, r)
  | '\n' :: _ => none
  | [] => none
  | c :: r =>
    match fuel with
    | 0 => none
    | f + 1 => mdTakeUrl f (c :: acc) r

/-- Scan the text following `[` for the earliest `](https?://...)`
completion; on failure of one `](` candidate the lazy `.*?` extends past
it to the next candidate.  Returns the captured URL and the input
remaining after the closing paren. -/
def mdScanBody (fuel : Nat) : List Char → Option (List Char × List Char)
  | [] => none
  | c :: r =>
    match fuel with
    | 0 => none
    | f + 1 =>
      if c = '\n' then none
      else if c = ']' then
        match r with
        | '(' :: r2 =>
          (match matchHttpScheme r2 with
           | some (sch, r3) =>
             match mdTakeUrl r3.length [] r3 with
             | some (mid, rest) => some (sch ++ mid, rest)
             | none => mdScanBody f r
           | none => mdScanBody f r)
        | _ => mdScanBody f r
      else mdScanBody f r

/-- `re.findall` for the markdown-link pattern: left-to-right,
non-overlapping matches; each match contributes its captured URL. -/
def mdScan (fuel : Nat) : List Char → List (List Char)
  | [] => []
  | c :: r =>
    match fuel with
    | 0 => []
    | f + 1 =>
      if c = '[' then
        match mdScanBody r.length r with
        | some (url, rest) => url :: mdScan f rest
        | none => mdScan f r
      else mdScan f r

/-- Characters admitted by the class `[^\s\"'<>]`. -/
def urlBodyChar (c : Char) : Bool :=
  !pyIsSpace c && c ≠ '"' && c.toNat ≠ 39 && c ≠ '<' && c ≠ '>'

/-- `re.findall` for the plain-URL pattern with the `(?<!\]\()`
lookbehind; `p2`/`p1` carry the two characters preceding the current
position. -/
def plainScan (fuel : Nat) (p2 p1 : Option Char) : List Char → List (List Char)
  | [] => []
  | c :: r =>
    match fuel with
    | 0 => []
    | f + 1 =>
      if p2 = some ']' && p1 = some '(' then plainScan f p1 (some c) r
      else
        match matchHttpScheme (c :: r) with
        | some (sch, r3) =>
          let body := r3.takeWhile urlBodyChar
          if body.isEmpty then plainScan f p1 (some c) r
          else
            let url := sch ++ body
            url :: plainScan f url.dropLast.getLast? url.getLast? (r3.drop body.length)
        | none => plainScan f p1 (some c) r

/-- helpers.py lines 105-107: markdown matches, then plain matches,
merged with first-seen deduplication. -/
def extractRawLinks (s : List Char) : List (List Char) :=
  dedupeKeepFirst (mdScan s.length s ++ plainScan s.length none none s)

/-- One iteration of the link-cleaning loop (helpers.py lines
121-137): clean the raw link, keep it when `urlparse` does not raise,
both scheme and netloc are truthy, and it is not already collected
(order preserved). -/
def collectStep (acc : List (List Char)) (l : List Char) : List (List Char) :=
  if l.isEmpty then acc
  else
    let cleaned := cleanUrl l
    if urlparseRaises cleaned then acc
    else if urlValid cleaned = true ∧ acc.contains cleaned = false then acc ++ [cleaned]
    else acc

/-- helpers.py lines 121-137 as a fold over the raw links. -/
def collectCleanLinks (raws : List (List Char)) : List (List Char) :=
  raws.foldl collectStep []

/-!
## Content extraction (helpers.py lines 140-167)
-/

/-- After the label word: `\s*` then a literal colon. -/
def colonAfterWs (r : List Char) : Bool :=
  match r.dropWhile pyIsSpace with
  | ':' :: _ => true
  | _ => false

/-- Does `(?:출처|Sources)\s*:` (IGNORECASE) match at this position? -/
def sourcesLabelAt (s : List Char) : Bool :=
  (listStartsWith s ['출', '처'] && colonAfterWs (s.drop 2)) ||
  (startsWithCI s ['s', 'o', 'u', 'r', 'c', 'e', 's'] && colonAfterWs (s.drop 7))

/-- The `re.search` for the sources label: the text strictly before the
first position where the label matches (the `\n*\s*` prefix of the
separator is whitespace, removed anyway by the subsequent `strip`). -/
def splitBeforeSourcesLabel (fuel : Nat) (acc : List Char) : List Char → Option (List Char)
  | [] => none
  | c :: r =>
    match fuel with
    | 0 => none
    | f + 1 =>
      if sourcesLabelAt (c :: r) then some acc.reverse
      else splitBeforeSourcesLabel f (c :: acc) r

/-- `re.match(r"^본문\s*:\s*\n?", ...)` and the removal of that prefix:
returns the text after the matched prefix when the pattern matches. -/
def stripBodyLabel (s : List Char) : Option (List Char) :=
  match s with
  | '본' :: '문' :: r =>
    (match r.dropWhile pyIsSpace with
     | ':' :: r2 => some (r2.dropWhile pyIsSpace)
     | _ => none)
  | _ => none

/-- Find the first case-insensitive occurrence of the pattern and
return the input remaining after it. -/
def findAfterCI (fuel : Nat) (pat : List Char) : List Char → Option (List Char)
  | [] => none
  | c :: r =>
    match fuel with
    | 0 => none
    | f + 1 =>
      if startsWithCI (c :: r) pat then some ((c :: r).drop pat.length)
      else findAfterCI f pat r

/-- The placeholder substituted when the computed content is empty
(helpers.py lines 174-175). -/
def placeholderNoContent : String := "결과에서 유효한 내용을 찾지 못했습니다."

/-- The body of the `try` block of `parse_agent_observation`
(helpers.py lines 103-167): extracted links and the content before the
placeholder substitution. -/
def parseObsCore (s : List Char) : List Char × List (List Char) :=
  let links := collectCleanLinks (extractRawLinks s)
  let contentPart :=
    match splitBeforeSourcesLabel s.length [] s with
    | some pre => pyStripList pre
    | none => s
  let contentA :=
    match stripBodyLabel contentPart with
    | some rest => pyStripList rest
    | none => contentPart
  let content :=
    match findAfterCI s.length
        ['f', 'i', 'n', 'a', 'l', ' ', 'a', 'n', 's', 'w', 'e', 'r', ':'] s with
    | none => contentA
    | some rest =>
      let possible := pyStripList rest
      if !links.isEmpty && possible.length < contentPart.length then possible
      else if links.isEmpty && !possible.isEmpty then possible
      else contentA
  (content, links)

/-- `parse_agent_observation` (helpers.py lines 88-178).  The flag
models an exception escaping the `try` block (lines 169-172): the
handler falls back to the stripped original text with no links; line
174 then substitutes the placeholder for empty content.  The function
itself is total: it always returns a `(content, links)` pair. -/
def parse_agent_observation (raisesInternal : Bool) (observation : String) :
    String × List String :=
  let core :=
    if raisesInternal then (pyStripList observation.data, [])
    else parseObsCore observation.data
  let content := if core.1.isEmpty then placeholderNoContent.data else core.1
  (String.mk content, core.2.map String.mk)

/-!
## format_search_results (helpers.py lines 60-84)
-/

/-- `format_search_results`: join the texts, deduplicate the truthy
links preserving order, and render the `본문`/`출처` sections. -/
def format_search_results (processedTexts : List String) (links : List String) : String :=
  if processedTexts.isEmpty then "관련 내용을 찾거나 추출하지 못했습니다."
  else
    let contentStr := joinSep ("\n\n") processedTexts
    let uniqueLinks :=
      if links.isEmpty then []
      else dedupeKeepFirst (links.filter (fun l => l ≠ ""))
    if !uniqueLinks.isEmpty then
      let linkListStr := joinSep ("\n") (uniqueLinks.map (fun l => "- " ++ l))
      "본문:\n" ++ contentStr ++ "\n\n출처:\n" ++ linkListStr
    else "본문:\n" ++ contentStr

/-!
## Retrieval tool adapters (helpers.py lines 26-56, pipeline.py lines 473-558)

Each external call made while processing one search-result item
(`engine.extract_text`, `engine.extract_main_text_from_html`,
`preprocess_html`, each run via `asyncio.to_thread`) is an oracle that
either returns a string or raises; `ItemCalls` bundles the behaviour of
the three calls for one item.  `asyncio.gather` over independent items
is the per-item map below (no cross-item interaction exists in the
source).
-/

/-- One search-result item as the adapters see it: `item.get("title", "")`
and `item.get("link")`. -/
structure RawItem where
  title : Option String
  link : Option String
deriving DecidableEq, Repr

/-- The behaviour of the three per-item external calls; `Except.error`
models a raised exception. -/
structure ItemCalls where
  extractTextRes : Except Unit String
  extractMainRes : Except Unit String
  preprocessRes : Except Unit String

/-- `_extract_and_process_item` (helpers.py lines 26-56): any raised
exception or falsy intermediate value yields `(None, None)`; success
yields the framed document text paired with the link. -/
def extract_and_process_item (item : RawItem) (calls : ItemCalls) :
    Option String × Option String :=
  let title := item.title.getD ("")
  match item.link with
  | none => (none, none)
  | some link =>
    if link = "" then (none, none)
    else
      match calls.extractTextRes with
      | Except.error _ => (none, none)
      | Except.ok html =>
        if html ≠ "" then
          match calls.extractMainRes with
          | Except.error _ => (none, none)
          | Except.ok _mainText =>
            match calls.preprocessRes with
            | Except.error _ => (none, none)
            | Except.ok processed =>
              if processed ≠ "" then
                (some ("--- 문서 (" ++ title ++ ") ---\n" ++ processed), some link)
              else (none, none)
        else (none, none)

/-- `[text for text, link in results if text]` (Python truthiness). -/
def truthyFirsts (results : List (Option String × Option String)) : List String :=
  results.filterMap (fun r =>
    match r.1 with
    | some t => if t ≠ "" then some t else none
    | none => none)

/-- `[link for text, link in results if link]`. -/
def truthySeconds (results : List (Option String × Option String)) : List String :=
  results.filterMap (fun r =>
    match r.2 with
    | some l => if l ≠ "" then some l else none
    | none => none)

/-- The shared item-processing tail of the three adapters: gather the
per-item results, keep the truthy texts and links, format. -/
def adapterGather (itemsC : List (RawItem × ItemCalls)) : String × List String :=
  let results := itemsC.map (fun p => extract_and_process_item p.1 p.2)
  let validTexts := truthyFirsts results
  let validLinks := truthySeconds results
  (format_search_results validTexts validLinks, validLinks)

/-- `run_naver_async` (pipeline.py lines 519-536).  The engine search
call either raises (with message `e`, interpolated into the boundary
error string) or returns the item list, each item bundled with the
behaviour of its own extraction calls. -/
def run_naver_async (engineReady helpersReady : Bool)
    (searchCall : Except String (List (RawItem × ItemCalls))) : String × List String :=
  if !engineReady then ("Naver 엔진 초기화 실패", [])
  else if !helpersReady then ("헬퍼 함수 임포트 실패", [])
  else
    match searchCall with
    | Except.error e => ("네이버 검색 처리 중 오류 발생: " ++ e, [])
    | Except.ok itemsC =>
      if itemsC.isEmpty then ("네이버 검색 결과 없음", [])
      else adapterGather itemsC

/-- `run_ces_async` (pipeline.py lines 540-558); identical control flow
to the Naver adapter up to the fixed strings. -/
def run_ces_async (engineReady helpersReady : Bool)
    (searchCall : Except String (List (RawItem × ItemCalls))) : String × List String :=
  if !engineReady then ("CES 엔진 초기화 실패", [])
  else if !helpersReady then ("헬퍼 함수 임포트 실패", [])
  else
    match searchCall with
    | Except.error e => ("CES 검색 처리 중 오류 발생: " ++ e, [])
    | Except.ok itemsC =>
      if itemsC.isEmpty then ("CES 검색 결과 없음", [])
      else adapterGather itemsC

/-- The behaviour of the SerpAPI search + `handle_response` pair
(pipeline.py lines 480-482): either call raises, or both succeed with a
handled-response string and the optional `organic_results` list (absent
key modelled as `none`). -/
inductive SerpCall : Type
  | searchRaises (e : String)
  | handleRaises (e : String)
  | ok (handled : String) (organic : Option (List (RawItem × ItemCalls)))

/-- The item dict rebuilt at pipeline.py lines 495-499:
`("title": i.get("title", ""), "link": i.get("link", ""))`. -/
def serpNormItem (p : RawItem × ItemCalls) : RawItem × ItemCalls :=
  (RawItem.mk (some (p.1.title.getD (""))) (some (p.1.link.getD (""))), p.2)

/-- `run_serpapi_async` (pipeline.py lines 473-515): answer-box and
no-result short circuits return the handled string verbatim with no
links; otherwise the organic results with a truthy link are processed
like the other adapters. -/
def run_serpapi_async (engineReady helpersReady : Bool) (call : SerpCall) :
    String × List String :=
  if !engineReady then ("SerpAPI 엔진 초기화 실패", [])
  else if !helpersReady then ("헬퍼 함수 임포트 실패", [])
  else
    match call with
    | SerpCall.searchRaises e => ("SerpAPI 검색 처리 중 오류 발생: " ++ e, [])
    | SerpCall.handleRaises e => ("SerpAPI 검색 처리 중 오류 발생: " ++ e, [])
    | SerpCall.ok handled organic =>
      let isGenericWebSearch := listStartsWith handled.data ("웹 검색").data
      let isNoResult := handled = "검색 결과 없음."
      if !isGenericWebSearch && !isNoResult then (handled, [])
      else if isNoResult then (handled, [])
      else
        let items := ((organic.getD []).map serpNormItem).filter
          (fun p => p.1.link.getD ("") ≠ "")
        if items.isEmpty then ("검색 결과 없음.", [])
        else adapterGather items

/-!
## Pipeline data model (pipeline.py lines 589-924)
-/

/-- A conversation-memory message (`HumanMessage` / `AIMessage`). -/
inductive Msg : Type
  | user (s : String)
  | ai (s : String)
deriving DecidableEq, Repr

/-- `f"{type(m).__name__}: {m.content}"` (pipeline.py line 851). -/
def msgLine : Msg → String
  | Msg.user s => "HumanMessage: " ++ s
  | Msg.ai s => "AIMessage: " ++ s

/-- `messages[-2:]`. -/
def lastTwo (l : List Msg) : List Msg :=
  l.drop (l.length - 2)

/-- The outcome of one chain `ainvoke`: raised, or returned a dict in
which the output key may be absent (`.get` then applies the default). -/
inductive ChainRes : Type
  | raises
  | ok (val : Option String)
deriving DecidableEq

/-- The outcome of `refine_chain.ainvoke` (pipeline.py lines 710-716
branch on the result type): raised, a dict with optional "text" key, a
bare string, or some other type. -/
inductive RefineRes : Type
  | raises
  | dict (text : Option String)
  | str (s : String)
  | other
deriving DecidableEq

/-- The observation stored in one intermediate step: a wellformed
`(str, list)` tuple or anything else (pipeline.py lines 765-784 skip
the step without breaking in the latter case). -/
inductive ObsVal : Type
  | pair (obs : String) (links : List String)
  | malformed
deriving DecidableEq

/-- One entry of `intermediate_steps`: `tool` is the `AgentAction.tool`
name when the step has the `(AgentAction, observation)` shape, `none`
for any malformed step. -/
structure AgentStep where
  tool : Option String
  obs : ObsVal
deriving DecidableEq

/-- The dict returned by `agent.ainvoke` (keys "output" and
"intermediate_steps", each possibly absent). -/
structure AgentRes where
  output : Option String
  steps : Option (List AgentStep)
deriving DecidableEq

/-- The outcome of the agent call: raised with message `e` (pipeline.py
line 793 interpolates it), or returned. -/
inductive AgentCall : Type
  | raises (e : String)
  | ok (r : AgentRes)
deriving DecidableEq

/-- The truthiness of the module-level components checked at
pipeline.py lines 626-636 (each may be `None` after a failed import or
initialization). -/
structure Components where
  llm : Bool
  decideC : Bool
  noSearchC : Bool
  refineC : Bool
  chooseC : Bool
  agentC : Bool
  searchAnswerC : Bool
  factCheckC : Bool
  parseC : Bool
deriving DecidableEq, Repr

/-- All components initialized. -/
def compsReady (c : Components) : Bool :=
  c.llm && c.decideC && c.noSearchC && c.refineC && c.chooseC && c.agentC &&
  c.searchAnswerC && c.factCheckC && c.parseC

/-- The behaviour of every external call `run_pipeline` makes, as
functions of the strings the pipeline passes them; `parseRaisesInternal`
feeds the internal-exception flag of `parse_agent_observation`, and
`memAddAiRaises` models the exception caught at pipeline.py lines
913-918. -/
structure Oracles : Type where
  decideCall : String → ChainRes
  noSearchCall : String → ChainRes
  refineCall : String → RefineRes
  chooseCall : String → ChainRes
  agentCall : String → AgentCall
  summarizeCall : String → String → ChainRes
  factCheckCall : String → String → ChainRes
  parseRaisesInternal : Bool
  memAddAiRaises : Bool

/-- Pipeline events, in execution order, used to state temporal
properties: stage entries and conversation-memory appends. -/
inductive Ev : Type
  | decideE
  | addUserE
  | noSearchE
  | refineE
  | chooseE
  | agentE
  | addAiE
deriving DecidableEq, Repr

/-- Did `a` occur, and after its first occurrence did `b` occur? -/
def beforeIn (a b : Ev) : List Ev → Bool
  | [] => false
  | x :: r => if x = a then r.contains b else beforeIn a b r

/-- What `run_pipeline` produces: the returned answer, the final
conversation memory, and the event trace. -/
structure PipeResult where
  answer : String
  mem : List Msg
  events : List Ev
deriving DecidableEq

/-!
## Pipeline stages (pipeline.py lines 614-924)
-/

/-- pipeline.py lines 640-647: `decision` from the decide chain with
default "SEARCH", `.strip().upper()` normalization, exception fallback
"SEARCH". -/
def decisionOf : ChainRes → String
  | ChainRes.raises => "SEARCH"
  | ChainRes.ok v => pyUpper (pyStrip (v.getD ("SEARCH")))

/-- pipeline.py lines 708-720: refined query from the refine chain,
falling back to the original query when the result is falsy, of an
unexpected type, or the chain raised. -/
def refinedOf (query : String) : RefineRes → String
  | RefineRes.raises => query
  | RefineRes.dict t =>
    let refined := pyStrip (t.getD query)
    if refined = "" then query else refined
  | RefineRes.str s =>
    let refined := pyStrip s
    if refined = "" then query else refined
  | RefineRes.other => query

/-- pipeline.py lines 722-733: engine name from the choose chain with
default "CES", `re.sub(r"[^a-zA-Z]+", "", raw).lower()` normalization,
validation against the fixed set, fallback "ces" on an invalid name or
a raised exception. -/
def engineNameOf : ChainRes → String
  | ChainRes.raises => "ces"
  | ChainRes.ok v =>
    let raw := pyStrip (v.getD ("CES"))
    let name := String.mk ((raw.data.filter Char.isAlpha).map Char.toLower)
    if (["serpapi", "naver", "ces"]).contains name then name else "ces"

/-- pipeline.py lines 736-741: `tool_map.get(engine_name, "ces_search")`. -/
def toolNameOf (engineName : String) : String :=
  if engineName = "serpapi" then "serpapi_search"
  else if engineName = "naver" then "naver_search"
  else if engineName = "ces" then "ces_search"
  else "ces_search"

/-- The retrieval tool names recognised by the trace walk
(pipeline.py lines 760-764). -/
def toolNames : List String := ["serpapi_search", "naver_search", "ces_search"]

/-- The test applied to one step by the reversed trace walk: its
`(observation, links)` when the step targets a retrieval tool and the
observation is a wellformed `(str, list)` tuple. -/
def toolObsOf (st : AgentStep) : Option (String × List String) :=
  match st.tool, st.obs with
  | some t, ObsVal.pair o l => if toolNames.contains t then some (o, l) else none
  | _, _ => none

/-- Walk a reversed trace for the first recognised step. -/
def walkRev : List AgentStep → Option (String × List String)
  | [] => none
  | st :: rest =>
    match toolObsOf st with
    | some r => some r
    | none => walkRev rest

/-- pipeline.py lines 754-781: walk `intermediate_steps` newest-first
and take the first step whose action targets a retrieval tool and whose
observation is a wellformed `(str, list)` tuple. -/
def findLastToolObs (steps : List AgentStep) : Option (String × List String) :=
  walkRev steps.reverse

/-- pipeline.py line 742: the prompt handed to the agent. -/
def agentInputOf (refined toolName : String) : String :=
  let apos := String.mk [Char.ofNat 39]
  apos ++ refined ++ apos ++ " 쿼리에 대해 " ++ apos ++ toolName ++ apos ++
    " 도구를 사용하여 관련 정보를 검색하고 그 결과를 말하라."

/-- pipeline.py lines 745-795: run the agent; on an exception the final
answer becomes the embedded error string, the fact-check observation is
empty and the links are empty.  On success the trace walk fills the
observation and links, the observation falling back to the final answer
when absent or empty.  Returns
`(final_answer_str, agent_observation_for_factcheck, original_source_links)`. -/
def agentStageOf (call : AgentCall) : String × String × List String :=
  match call with
  | AgentCall.raises e => ("Agent 실행 중 에러 발생: " ++ e, "", [])
  | AgentCall.ok r =>
    let finalAnswerStr := pyStrip (r.output.getD (""))
    let walked := findLastToolObs (r.steps.getD [])
    let obsFC := match walked with | some w => w.1 | none => ""
    let links := match walked with | some w => w.2 | none => []
    let obsFC := if obsFC = "" then finalAnswerStr else obsFC
    (finalAnswerStr, obsFC, links)

/-- pipeline.py lines 801-810: content extracted from the agent final
answer via the parser, with fallbacks. -/
def extractedContentOf (finalAnswerStr : String) (parseRaisesInternal : Bool) : String :=
  if finalAnswerStr ≠ "" then
    let parsedBody := (parse_agent_observation parseRaisesInternal finalAnswerStr).1
    if parsedBody ≠ "" then parsedBody else finalAnswerStr
  else "(Agent 최종 답변 없음)"

/-- The error markers guarding the summarization stage
(pipeline.py lines 816-819). -/
def summarySkipMarkers : List String := ["오류", "실패", "없음", "불가", "죄송합니다"]

/-- pipeline.py lines 812-838: summarize unless the content is empty,
carries an error marker, or the chain is unavailable; keep the content
on a raised chain or an empty summary. -/
def summaryOf (searchAnswerReady : Bool) (extracted refined : String)
    (call : String → String → ChainRes) : String :=
  if extracted ≠ "" ∧
      (summarySkipMarkers.any (fun m => strContains extracted m)) = false ∧
      searchAnswerReady = true then
    match call extracted refined with
    | ChainRes.raises => extracted
    | ChainRes.ok v =>
      let temp := pyStrip (v.getD (""))
      if temp ≠ "" then temp else extracted
  else extracted

/-- pipeline.py lines 845-856: the last two memory messages rendered as
history text. -/
def historyTextOf (mem : List Msg) : String :=
  let historyText := joinSep ("\n") ((lastTwo mem).map msgLine)
  if historyText = "" then "(이전 대화 없음)" else historyText

/-- pipeline.py lines 858-871: the grounding-evidence block passed to
the fact-check chain. -/
def combinedHistoryOf (obsFC historyText : String) : String :=
  let body :=
    let stripped := pyStrip obsFC
    if stripped ≠ "" then stripped else "(검색된 본문 내용 없음)"
  "[검색된 본문]\n" ++ strTake 2000 body ++ "\n\n[최근 대화 기록]\n" ++ historyText

/-- The failure markers rejecting a fact-check output
(pipeline.py lines 878-881). -/
def factCheckRejectMarkers : List String := ["오류", "정보 확인 불가", "수정 불가"]

/-- pipeline.py lines 840-889: fact-check the summary against the
grounding evidence and recent history; keep the summary when the chain
is unavailable, raises, returns empty output or a failure marker. -/
def checkedSummaryOf (factCheckReady : Bool) (summary obsFC : String)
    (mem : List Msg) (call : String → String → ChainRes) : String :=
  if factCheckReady then
    let combined := combinedHistoryOf obsFC (historyTextOf mem)
    match call summary combined with
    | ChainRes.raises => summary
    | ChainRes.ok v =>
      let temp := pyStrip (v.getD (""))
      if temp ≠ "" ∧ (factCheckRejectMarkers.any (fun m => strContains temp m)) = false then
        temp
      else summary
  else summary

/-- pipeline.py lines 896-910: append the deduplicated truthy source
links as a trailing `출처` block, when any survive. -/
def attachSourceLinks (body : String) (links : List String) : String :=
  if !links.isEmpty then
    let uniqueLinks := dedupeKeepFirst (links.filter (fun l => l ≠ ""))
    if !uniqueLinks.isEmpty then
      body ++ "\n\n출처:\n" ++ joinSep ("\n") (uniqueLinks.map (fun l => "- " ++ l))
    else body
  else body

/-- The trailing sources block as a pure function of the link list
(empty when no truthy link survives deduplication). -/
def sourcesSuffix (links : List String) : String :=
  let uniqueLinks := dedupeKeepFirst (links.filter (fun l => l ≠ ""))
  if uniqueLinks.isEmpty then ""
  else "\n\n출처:\n" ++ joinSep ("\n") (uniqueLinks.map (fun l => "- " ++ l))

/-!
## The pipeline orchestrator
-/

/-- The NO_SEARCH path (pipeline.py lines 650-660): append the user
message, invoke the short-answer chain (strip, cap at 50 characters),
append the answer; the whole block is guarded by one `try`, whose
handler returns the fixed error string after the user message was
already appended. -/
def noSearchRun (query : String) (o : Oracles) (mem0 : List Msg) : PipeResult :=
  match o.noSearchCall query with
  | ChainRes.raises =>
    PipeResult.mk ("간단 답변 생성 에러") (mem0 ++ [Msg.user query])
      [Ev.decideE, Ev.addUserE, Ev.noSearchE]
  | ChainRes.ok v =>
    let answer := strTake 50 (pyStrip (v.getD ("답변 생성 불가")))
    PipeResult.mk answer (mem0 ++ [Msg.user query, Msg.ai answer])
      [Ev.decideE, Ev.addUserE, Ev.noSearchE, Ev.addAiE]

/-- The structurally-unavailable-search fallback
(pipeline.py lines 664-695); unreachable in fact, because the guard at
lines 626-636 already requires every component it re-checks. -/
def searchFallbackRun (query : String) (o : Oracles) (mem0 : List Msg) : PipeResult :=
  match o.noSearchCall query with
  | ChainRes.raises =>
    PipeResult.mk ("답변 생성 중 오류 발생.") (mem0 ++ [Msg.user query])
      [Ev.decideE, Ev.addUserE, Ev.noSearchE]
  | ChainRes.ok v =>
    let fallbackAnswer := strTake 20 (pyStrip (v.getD ("답변 오류")))
    PipeResult.mk fallbackAnswer (mem0 ++ [Msg.user query, Msg.ai fallbackAnswer])
      [Ev.decideE, Ev.addUserE, Ev.noSearchE, Ev.addAiE]

/-- The SEARCH path (pipeline.py lines 697-924): refine, choose an
engine, run the agent, append the user message, parse, summarize,
fact-check, attach the sources, append the assistant message. -/
def searchPathRun (query : String) (comps : Components) (o : Oracles)
    (mem0 : List Msg) : PipeResult :=
  let refined := refinedOf query (o.refineCall query)
  let engineName := engineNameOf (o.chooseCall refined)
  let agentInput := agentInputOf refined (toolNameOf engineName)
  let ag := agentStageOf (o.agentCall agentInput)
  let finalAnswerStr := ag.1
  let obsFC := ag.2.1
  let sourceLinks := ag.2.2
  let mem1 := mem0 ++ [Msg.user query]
  let extracted := extractedContentOf finalAnswerStr o.parseRaisesInternal
  let summary := summaryOf comps.searchAnswerC extracted refined o.summarizeCall
  let checked := checkedSummaryOf comps.factCheckC summary obsFC mem1 o.factCheckCall
  let finalAnswer := attachSourceLinks checked sourceLinks
  if o.memAddAiRaises then
    PipeResult.mk finalAnswer mem1
      [Ev.decideE, Ev.refineE, Ev.chooseE, Ev.agentE, Ev.addUserE]
  else
    PipeResult.mk finalAnswer (mem1 ++ [Msg.ai finalAnswer])
      [Ev.decideE, Ev.refineE, Ev.chooseE, Ev.agentE, Ev.addUserE, Ev.addAiE]

/-- `run_pipeline` (pipeline.py lines 614-924): the component guard,
the decision branch, the (dead) structural fallback and the search
path. -/
def run_pipeline (query : String) (comps : Components) (o : Oracles)
    (mem0 : List Msg) : PipeResult :=
  if compsReady comps then
    if decisionOf (o.decideCall query) = "NO_SEARCH" then noSearchRun query o mem0
    else if comps.agentC && comps.refineC && comps.chooseC &&
        comps.searchAnswerC && comps.factCheckC then
      searchPathRun query comps o mem0
    else searchFallbackRun query o mem0
  else PipeResult.mk ("챗봇 초기화 오류 발생.") mem0 []

/-!
## Shared concrete instances for closed statements
-/

/-- All components initialized (the normal deployment state). -/
def compsAll : Components := Components.mk true true true true true true true true true

/-- A benign baseline behaviour for every external call, used to build
concrete runs. -/
def baseOracles : Oracles :=
  Oracles.mk
    (fun _ => ChainRes.ok (some ("SEARCH")))
    (fun _ => ChainRes.ok (some ("답변")))
    (fun _ => RefineRes.dict (some ("정제된 쿼리")))
    (fun _ => ChainRes.ok (some ("Naver")))
    (fun _ => AgentCall.ok (AgentRes.mk (some ("결과입니다"))
      (some [AgentStep.mk (some ("naver_search"))
        (ObsVal.pair ("본문입니다") ["https://a.com/x"])])))
    (fun _ _ => ChainRes.ok (some ("요약입니다")))
    (fun _ _ => ChainRes.ok (some ("검증된 답변입니다")))
    false false

/-- Replace the decide-chain behaviour. -/
def withDecideCall (o : Oracles) (d : String → ChainRes) : Oracles :=
  Oracles.mk d o.noSearchCall o.refineCall o.chooseCall o.agentCall
    o.summarizeCall o.factCheckCall o.parseRaisesInternal o.memAddAiRaises

/-- Replace the no-search-chain behaviour. -/
def withNoSearchCall (o : Oracles) (d : String → ChainRes) : Oracles :=
  Oracles.mk o.decideCall d o.refineCall o.chooseCall o.agentCall
    o.summarizeCall o.factCheckCall o.parseRaisesInternal o.memAddAiRaises

/-- The one behaviour in which the pipeline returns an empty answer:
the decision resolves to NO_SEARCH and the no-search chain returns,
without raising, an answer that strips to the empty string (the
truncation at pipeline.py line 655 is then empty and is returned). -/
def emptyNoSearchAnswer (query : String) (o : Oracles) : Prop :=
  decisionOf (o.decideCall query) = "NO_SEARCH" ∧
  (match o.noSearchCall query with
   | ChainRes.ok v => pyStrip (v.getD ("답변 생성 불가")) = ""
   | ChainRes.raises => False)

/-- A NO_SEARCH decision combined with a successfully returned empty
short answer. -/
def emptyAnswerOracles : Oracles :=
  withNoSearchCall
    (withDecideCall baseOracles (fun _ => ChainRes.ok (some ("NO_SEARCH"))))
    (fun _ => ChainRes.ok (some ("")))

/-- The shape left at the front after junk stripping. -/
def noJunkFront : List Char → Prop
  | [] => True
  | [c] => junkChar c = false
  | c1 :: c2 :: _ => junkPairRev c1 c2 = false ∧ junkChar c1 = false

/-- The agent input computed by the search path (pipeline.py line
742). -/
def searchAgentInput (q : String) (o : Oracles) : String :=
  agentInputOf (refinedOf q (o.refineCall q))
    (toolNameOf (engineNameOf (o.chooseCall (refinedOf q (o.refineCall q)))))

/-- `original_source_links`: the link list of the most recent
wellformed retrieval-tool step of this run's agent trace
(pipeline.py lines 753-795). -/
def searchSourceLinks (q : String) (o : Oracles) : List String :=
  (agentStageOf (o.agentCall (searchAgentInput q o))).2.2

/-- The fact-checked answer body of the search path, before the source
links are attached (pipeline.py lines 801-892). -/
def searchAnswerBody (q : String) (comps : Components) (o : Oracles)
    (m0 : List Msg) : String :=
  let refined := refinedOf q (o.refineCall q)
  let ag := agentStageOf (o.agentCall (searchAgentInput q o))
  checkedSummaryOf comps.factCheckC
    (summaryOf comps.searchAnswerC
      (extractedContentOf ag.1 o.parseRaisesInternal) refined o.summarizeCall)
    ag.2.1 (m0 ++ [Msg.user q]) o.factCheckCall

/-!
## Helper lemmas
-/

/-- A string built from a nonempty character list is nonempty. -/
theorem mkString_ne_empty {l : List Char} (h : l ≠ []) : String.mk l ≠ "" := by
  intro he
  exact h (congrArg String.data he)

/-- Appending cannot erase a nonempty prefix. -/
theorem strAppend_ne_empty (a b : String) (h : a ≠ "") : a ++ b ≠ "" := by
  intro he
  apply h
  have hd := congrArg String.data he
  rw [String.data_append] at hd
  have ha : a.data = [] := (List.append_eq_nil.mp hd).1
  cases a with
  | mk d => cases ha; rfl

/-- A list with `isEmpty = false` is not nil. -/
theorem isEmpty_false_ne {α : Type} {l : List α} (h : l.isEmpty = false) : l ≠ [] := by
  cases l with
  | nil => simp at h
  | cons a r => simp

/-- The content component of the parser is never empty: helpers.py
lines 174-175 substitute the placeholder. -/
theorem parse_content_ne (r : Bool) (obs : String) :
    (parse_agent_observation r obs).1 ≠ "" := by
  unfold parse_agent_observation
  by_cases h :
      (if r then (pyStripList obs.data, ([] : List (List Char)))
       else parseObsCore obs.data).1.isEmpty
  · simp only [h, if_true]
    exact mkString_ne_empty (by decide)
  · simp only [h, if_false]
    exact mkString_ne_empty (isEmpty_false_ne (Bool.of_not_eq_true h))

/-- C4: for every input string and every internal-exception behaviour,
`parse_agent_observation` returns a `(content, links)` pair whose
content is never empty (the fixed placeholder replaces empty content),
and when an internal exception occurs the result is the stripped
original text paired with the empty link list (placeholder substituted
when the stripped text is empty).  Totality of the Lean function is the
never-raises part of the claim. -/
theorem parse_agent_observation_total (obs : String) (r : Bool) :
    (parse_agent_observation r obs).1 ≠ "" ∧
    (r = true →
      parse_agent_observation r obs =
        (if pyStrip obs = "" then placeholderNoContent else pyStrip obs, [])) := by
  refine ⟨parse_content_ne r obs, ?_⟩
  intro hr
  subst hr
  have hre : parse_agent_observation true obs =
      (String.mk (if (pyStripList obs.data).isEmpty then placeholderNoContent.data
        else pyStripList obs.data), []) := rfl
  by_cases h : pyStripList obs.data = []
  · have he : pyStrip obs = "" := by
      unfold pyStrip
      rw [h]
    rw [hre]
    rw [if_pos he]
    rw [if_pos (List.isEmpty_iff.mpr h)]
  · have hne : pyStrip obs ≠ "" := mkString_ne_empty h
    rw [hre]
    rw [if_neg hne]
    rw [if_neg (fun hh => h (List.isEmpty_iff.mp hh))]
    rfl

/-- C4 witness: a concrete internal-exception run. -/
theorem parse_agent_observation_total_witness :
    parse_agent_observation true (" 본문입니다 ") =
      (if pyStrip (" 본문입니다 ") = "" then placeholderNoContent
       else pyStrip (" 본문입니다 "), []) :=
  (parse_agent_observation_total (" 본문입니다 ") true).2 rfl

/-- None of the three pipeline paths reads the decide-chain oracle, so
two decide behaviours whose NO_SEARCH outcome agrees give identical
pipeline runs. -/
theorem run_pipeline_decide_congr (q : String) (comps : Components) (o : Oracles)
    (m0 : List Msg) (d1 d2 : String → ChainRes)
    (h : decisionOf (d1 q) = "NO_SEARCH" ↔ decisionOf (d2 q) = "NO_SEARCH") :
    run_pipeline q comps (withDecideCall o d1) m0 =
      run_pipeline q comps (withDecideCall o d2) m0 := by
  have e1 : searchPathRun q comps (withDecideCall o d1) m0 =
      searchPathRun q comps (withDecideCall o d2) m0 := rfl
  have e2 : noSearchRun q (withDecideCall o d1) m0 =
      noSearchRun q (withDecideCall o d2) m0 := rfl
  have e3 : searchFallbackRun q (withDecideCall o d1) m0 =
      searchFallbackRun q (withDecideCall o d2) m0 := rfl
  unfold run_pipeline
  simp only [withDecideCall] at e1 e2 e3 ⊢
  by_cases hd : decisionOf (d1 q) = "NO_SEARCH"
  · simp [hd, h.mp hd, e2]
  · have hd2 : ¬decisionOf (d2 q) = "NO_SEARCH" := fun hh => hd (h.mpr hh)
    simp [hd, hd2, e1, e3]

/-- C2: the decide output is normalized (strip then upper) before the
comparison with the literal NO_SEARCH; a raised decide call yields the
effective decision SEARCH; and both a raised call and any output whose
normalization differs from NO_SEARCH make the pipeline continue exactly
as an explicit SEARCH decision would (no crash, search path taken). -/
theorem decide_stage_normalization :
    (∀ s : String, decisionOf (ChainRes.ok (some s)) = pyUpper (pyStrip s)) ∧
    decisionOf ChainRes.raises = "SEARCH" ∧
    (∀ (q : String) (comps : Components) (o : Oracles) (m0 : List Msg),
      run_pipeline q comps (withDecideCall o (fun _ => ChainRes.raises)) m0 =
        run_pipeline q comps
          (withDecideCall o (fun _ => ChainRes.ok (some ("SEARCH")))) m0) ∧
    (∀ (q : String) (comps : Components) (o : Oracles) (m0 : List Msg) (s : String),
      pyUpper (pyStrip s) ≠ "NO_SEARCH" →
      run_pipeline q comps (withDecideCall o (fun _ => ChainRes.ok (some s))) m0 =
        run_pipeline q comps
          (withDecideCall o (fun _ => ChainRes.ok (some ("SEARCH")))) m0) := by
  refine ⟨fun s => rfl, rfl, ?_, ?_⟩
  · intro q comps o m0
    exact run_pipeline_decide_congr q comps o m0 _ _ (by decide)
  · intro q comps o m0 s hs
    refine run_pipeline_decide_congr q comps o m0 _ _ ?_
    constructor
    · intro hh
      exact absurd hh hs
    · intro hh
      exact absurd hh (by decide)

/-- C2 witness: a concrete decision string normalizing to SEARCH. -/
theorem decide_stage_normalization_witness :
    run_pipeline ("질문") compsAll
        (withDecideCall baseOracles (fun _ => ChainRes.ok (some (" search ")))) [] =
      run_pipeline ("질문") compsAll
        (withDecideCall baseOracles (fun _ => ChainRes.ok (some ("SEARCH")))) [] :=
  decide_stage_normalization.2.2.2 ("질문") compsAll baseOracles [] (" search ")
    (by decide)

/-- After selection the engine name always lies in the fixed set. -/
theorem engineNameOf_mem (r : ChainRes) :
    engineNameOf r = "serpapi" ∨ engineNameOf r = "naver" ∨ engineNameOf r = "ces" := by
  cases r with
  | raises =>
    right; right; rfl
  | ok v =>
    have he : engineNameOf (ChainRes.ok v) =
        (if (["serpapi", "naver", "ces"]).contains
            (String.mk (((pyStrip (v.getD ("CES"))).data.filter Char.isAlpha).map
              Char.toLower)) = true then
          String.mk (((pyStrip (v.getD ("CES"))).data.filter Char.isAlpha).map
            Char.toLower)
        else "ces") := rfl
    rw [he]
    by_cases hc : (["serpapi", "naver", "ces"]).contains
        (String.mk (((pyStrip (v.getD ("CES"))).data.filter Char.isAlpha).map
          Char.toLower)) = true
    · rw [if_pos hc]
      have hmem : String.mk (((pyStrip (v.getD ("CES"))).data.filter Char.isAlpha).map
          Char.toLower) = "serpapi" ∨
          String.mk (((pyStrip (v.getD ("CES"))).data.filter Char.isAlpha).map
            Char.toLower) = "naver" ∨
          String.mk (((pyStrip (v.getD ("CES"))).data.filter Char.isAlpha).map
            Char.toLower) = "ces" := by
        simpa using hc
      exact hmem
    · rw [if_neg hc]
      right; right; rfl

/-- C3: totality and normalization of the engine selection
(pipeline.py lines 722-733): the chosen engine name is always exactly
one of serpapi, naver, ces; a raised selection defaults to ces; the raw
output is normalized by deleting non-letter characters and lowercasing
then validated against the set; and an invalid normalization defaults
to ces. -/
theorem engine_selection_totality :
    (∀ r : ChainRes, engineNameOf r = "serpapi" ∨ engineNameOf r = "naver" ∨
      engineNameOf r = "ces") ∧
    engineNameOf ChainRes.raises = "ces" ∧
    (∀ s : String,
      engineNameOf (ChainRes.ok (some s)) =
        (if (["serpapi", "naver", "ces"]).contains
            (String.mk (((pyStrip s).data.filter Char.isAlpha).map Char.toLower)) then
          String.mk (((pyStrip s).data.filter Char.isAlpha).map Char.toLower)
        else "ces")) ∧
    (∀ s : String,
      (["serpapi", "naver", "ces"]).contains
          (String.mk (((pyStrip s).data.filter Char.isAlpha).map Char.toLower)) = false →
      engineNameOf (ChainRes.ok (some s)) = "ces") := by
  refine ⟨engineNameOf_mem, rfl, fun s => rfl, ?_⟩
  intro s hinv
  have he : engineNameOf (ChainRes.ok (some s)) =
      (if (["serpapi", "naver", "ces"]).contains
          (String.mk (((pyStrip s).data.filter Char.isAlpha).map Char.toLower)) = true then
        String.mk (((pyStrip s).data.filter Char.isAlpha).map Char.toLower)
      else "ces") := rfl
  rw [he, if_neg]
  intro hc
  rw [hinv] at hc
  exact Bool.false_ne_true hc

/-- C3 witness: a concrete invalid selector output defaults to ces. -/
theorem engine_selection_totality_witness :
    engineNameOf (ChainRes.ok (some ("구글 검색!"))) = "ces" :=
  engine_selection_totality.2.2.2 ("구글 검색!") (by decide)

/-- Truncation of a nonempty string with a positive bound is nonempty. -/
theorem strTake_ne_empty (n : Nat) (s : String) (hn : n ≠ 0) (h : s ≠ "") :
    strTake n s ≠ "" := by
  cases s with
  | mk l =>
    cases l with
    | nil => exact absurd rfl h
    | cons a r =>
      cases n with
      | zero => exact absurd rfl hn
      | succ m =>
        apply mkString_ne_empty
        simp [strTake]

/-- The extracted content of pipeline.py lines 801-810 is never empty. -/
theorem extractedContentOf_ne (finalAnswerStr : String) (pr : Bool) :
    extractedContentOf finalAnswerStr pr ≠ "" := by
  unfold extractedContentOf
  by_cases h : finalAnswerStr = ""
  · simp [h]
  · have hp := parse_content_ne pr finalAnswerStr
    simp [h, hp]

/-- The summary of pipeline.py lines 812-838 is nonempty whenever the
content it falls back to is. -/
theorem summaryOf_ne (sa : Bool) (extracted refined : String)
    (call : String → String → ChainRes) (h : extracted ≠ "") :
    summaryOf sa extracted refined call ≠ "" := by
  simp only [summaryOf]
  split
  · split
    · exact h
    · split
      · rename_i hcond
        exact hcond
      · exact h
  · exact h

/-- The fact-checked summary of pipeline.py lines 840-889 is nonempty
whenever the summary it falls back to is. -/
theorem checkedSummaryOf_ne (fc : Bool) (summary obsFC : String) (mem : List Msg)
    (call : String → String → ChainRes) (h : summary ≠ "") :
    checkedSummaryOf fc summary obsFC mem call ≠ "" := by
  simp only [checkedSummaryOf]
  split
  · split
    · exact h
    · split
      · rename_i hcond
        exact hcond.1
      · exact h
  · exact h

/-- Attaching a sources block preserves nonemptiness of the body. -/
theorem attachSourceLinks_ne (body : String) (links : List String) (h : body ≠ "") :
    attachSourceLinks body links ≠ "" := by
  simp only [attachSourceLinks]
  split
  · split
    · exact strAppend_ne_empty _ _ (strAppend_ne_empty _ _ h)
    · exact h
  · exact h

/-- The search path always returns a nonempty answer. -/
theorem searchPathRun_answer_ne (q : String) (comps : Components) (o : Oracles)
    (m0 : List Msg) : (searchPathRun q comps o m0).answer ≠ "" := by
  unfold searchPathRun
  by_cases hm : o.memAddAiRaises = true <;>
    simp only [hm, Bool.false_eq_true, if_true, if_false] <;>
    exact attachSourceLinks_ne _ _
      (checkedSummaryOf_ne _ _ _ _ _
        (summaryOf_ne _ _ _ _ (extractedContentOf_ne _ _)))

/-- C1 (amended) counterexample to the claim as stated: with a
NO_SEARCH decision and a no-search chain that successfully returns the
empty string, run_pipeline returns the empty answer for a nonempty
query (pipeline.py line 655: the stripped, truncated chain output is
returned unconditionally). -/
theorem run_pipeline_empty_answer_cex :
    ("안녕" : String) ≠ "" ∧
    (run_pipeline ("안녕") compsAll emptyAnswerOracles []).answer = "" := by
  constructor
  · decide
  · decide

/-- C1 (amended): for every nonempty query and every behaviour of the
external calls, run_pipeline totally computes a result (never
propagates an exception) and its answer is nonempty except in the one
case where the decision is NO_SEARCH and the no-search chain
successfully returns an answer that strips to the empty string. -/
theorem run_pipeline_answer_nonempty (q : String) (comps : Components) (o : Oracles)
    (m0 : List Msg) (_hq : q ≠ "") (hns : ¬emptyNoSearchAnswer q o) :
    (run_pipeline q comps o m0).answer ≠ "" := by
  unfold run_pipeline
  by_cases hcr : compsReady comps = true
  · simp only [hcr, if_true]
    by_cases hd : decisionOf (o.decideCall q) = "NO_SEARCH"
    · simp only [hd, if_true]
      unfold noSearchRun
      cases hns2 : o.noSearchCall q with
      | raises =>
        show ("간단 답변 생성 에러" : String) ≠ ""
        decide
      | ok v =>
        have hv : pyStrip (v.getD ("답변 생성 불가")) ≠ "" := by
          intro hh
          apply hns
          refine ⟨hd, ?_⟩
          rw [hns2]
          exact hh
        exact strTake_ne_empty 50 _ (by decide) hv
    · simp only [compsReady, Bool.and_eq_true] at hcr
      obtain ⟨⟨⟨⟨⟨⟨⟨⟨h1, h2⟩, h3⟩, h4⟩, h5⟩, h6⟩, h7⟩, h8⟩, h9⟩ := hcr
      rw [if_neg hd, if_pos]
      · exact searchPathRun_answer_ne q comps o m0
      · simp [h4, h5, h6, h7, h8]
  · rw [if_neg hcr]
    show ("챗봇 초기화 오류 발생." : String) ≠ ""
    decide

/-- C1 witness: a benign run with all components up returns a nonempty
answer. -/
theorem run_pipeline_answer_nonempty_witness :
    (run_pipeline ("안녕") compsAll baseOracles []).answer ≠ "" :=
  run_pipeline_answer_nonempty ("안녕") compsAll baseOracles [] (by decide)
    (by
      intro h
      exact absurd h.1 (by decide))

/-- C6: source-link deduplication is order-preserving: with link list
[A, A, B, A] (A, B nonempty, distinct), both the observation formatted
by format_search_results and the trailing sources block attached to the
final answer list A then B, each exactly once, in first-seen order. -/
theorem dedupe_order_preserving (ts : List String) (body A B : String)
    (hts : ts ≠ []) (hA : A ≠ "") (hB : B ≠ "") (hAB : A ≠ B) :
    format_search_results ts [A, A, B, A] =
      "본문:\n" ++ joinSep ("\n\n") ts ++ "\n\n출처:\n" ++
        joinSep ("\n") ["- " ++ A, "- " ++ B] ∧
    attachSourceLinks body [A, A, B, A] =
      body ++ "\n\n출처:\n" ++ joinSep ("\n") ["- " ++ A, "- " ++ B] := by
  have hBA : B ≠ A := Ne.symm hAB
  have hud : dedupeKeepFirst (([A, A, B, A]).filter (fun l => !decide (l = ""))) =
      [A, B] := by
    have hfilter : ([A, A, B, A]).filter (fun l => !decide (l = "")) = [A, A, B, A] := by
      simp [List.filter_cons, hA, hB]
    rw [hfilter]
    simp [dedupeKeepFirst, dedupeKeepFirstAux, hAB, hBA]
  constructor
  · simp [format_search_results, hts, hud]
  · simp [attachSourceLinks, hud]

/-- C6 witness: concrete texts and links. -/
theorem dedupe_order_preserving_witness :
    format_search_results ["본문1"] ["https://a.com/", "https://a.com/", "https://b.com/",
        "https://a.com/"] =
      "본문:\n" ++ joinSep ("\n\n") ["본문1"] ++ "\n\n출처:\n" ++
        joinSep ("\n") ["- " ++ "https://a.com/", "- " ++ "https://b.com/"] ∧
    attachSourceLinks ("요약 본문") ["https://a.com/", "https://a.com/", "https://b.com/",
        "https://a.com/"] =
      "요약 본문" ++ "\n\n출처:\n" ++
        joinSep ("\n") ["- " ++ "https://a.com/", "- " ++ "https://b.com/"] :=
  dedupe_order_preserving ["본문1"] ("요약 본문") ("https://a.com/") ("https://b.com/")
    (by decide) (by decide) (by decide) (by decide)

/-- C7: URL cleaning strips the trailing markdown paren, punctuation
and attached Korean particles until stable, then the URL is validated
by scheme+host presence: the link "https://example.com/page)에서"
cleans to "https://example.com/page", parsing a text containing it
extracts exactly that cleaned link, and the cleaned link passes
scheme+netloc validation. -/
theorem url_trailing_junk_cleanup :
    String.mk (cleanUrl (("https://example.com/page)에서").data)) =
      "https://example.com/page" ∧
    (parse_agent_observation false ("본문: https://example.com/page)에서 확인")).2 =
      ["https://example.com/page"] ∧
    urlValid (("https://example.com/page").data) = true := by
  refine ⟨?_, ?_, ?_⟩ <;> decide

/-- C8 counterexample: a markdown link whose URL contains a space is
extracted, cleaned and validated unchanged (urlparse accepts a netloc
with a space), but re-running the extraction on that produced link
stops at the space: re-extraction yields a different list, so
extraction-and-cleaning is not idempotent on produced link lists. -/
theorem reextract_links_not_idempotent :
    (parse_agent_observation false ("[x](http://a b)")).2 = ["http://a b"] ∧
    (parse_agent_observation false ("http://a b")).2 = ["http://a"] ∧
    ("http://a b" : String) ≠ "http://a" := by
  refine ⟨?_, ?_, ?_⟩ <;> decide

/-- Whitespace characters are junk tokens. -/
theorem junkChar_of_ws {c : Char} (h : pyIsSpace c = true) : junkChar c = true := by
  simp [junkChar, h]

/-- No two-character junk token starts (reversed) with whitespace. -/
theorem ws_no_pair {a : Char} (h : pyIsSpace a = true) (c2 : Char) :
    junkPairRev a c2 = false := by
  have h1 : a ≠ '서' := fun he => by subst he; exact absurd h (by decide)
  have h2 : a ≠ '로' := fun he => by subst he; exact absurd h (by decide)
  have h3 : a ≠ '와' := fun he => by subst he; exact absurd h (by decide)
  have h4 : a ≠ '과' := fun he => by subst he; exact absurd h (by decide)
  simp [junkPairRev, h1, h2, h3, h4]

/-- Stripping a junk character (that heads no pair) from the front. -/
theorem stripJunkRev_cons_junk_nopair (a : Char) (r : List Char)
    (hj : junkChar a = true) (hnp : ∀ c2, junkPairRev a c2 = false) :
    stripJunkRev (a :: r) = stripJunkRev r := by
  cases r with
  | nil => simp [stripJunkRev, hj]
  | cons b rr => simp [stripJunkRev, hnp b, hj]

/-- Leading whitespace does not change the junk stripping. -/
theorem stripJunkRev_dropWhile (l : List Char) :
    stripJunkRev (l.dropWhile pyIsSpace) = stripJunkRev l := by
  induction l with
  | nil => rfl
  | cons a r ih =>
    by_cases h : pyIsSpace a = true
    · rw [List.dropWhile_cons, if_pos h, ih,
        stripJunkRev_cons_junk_nopair a r (junkChar_of_ws h) (ws_no_pair h)]
    · rw [List.dropWhile_cons, if_neg h]

/-- The left strip of `link.strip()` is absorbed by the junk-suffix
removal of the reversed list, so the cleanup only left-trims. -/
theorem cleanUrl_eq_dropWhile (l : List Char) :
    cleanUrl l = stripJunkSuffix (l.dropWhile pyIsSpace) := by
  unfold cleanUrl stripJunkSuffix pyStripList
  rw [List.reverse_reverse, stripJunkRev_dropWhile]

/-- After stripping, no junk token remains at the front (fuel-indexed
strong induction on the list length). -/
theorem stripJunkRev_noJunkFront_aux :
    ∀ (n : Nat) (l : List Char), l.length ≤ n → noJunkFront (stripJunkRev l) := by
  intro n
  induction n with
  | zero =>
    intro l h
    have : l = [] := List.eq_nil_of_length_eq_zero (Nat.le_zero.mp h)
    subst this
    exact trivial
  | succ n ih =>
    intro l h
    cases l with
    | nil => exact trivial
    | cons a r =>
      cases r with
      | nil =>
        by_cases hj : junkChar a = true
        · simp [stripJunkRev, hj, noJunkFront]
        · simp only [stripJunkRev, hj, if_false, Bool.false_eq_true]
          simp only [noJunkFront]
          exact Bool.eq_false_iff.mpr hj
      | cons b rr =>
        by_cases hp : junkPairRev a b = true
        · rw [show stripJunkRev (a :: b :: rr) = stripJunkRev rr from by
            simp [stripJunkRev, hp]]
          exact ih rr (by simp at h ⊢; omega)
        · by_cases hj : junkChar a = true
          · rw [show stripJunkRev (a :: b :: rr) = stripJunkRev (b :: rr) from by
              simp [stripJunkRev, hp, hj]]
            exact ih (b :: rr) (by simp at h ⊢; omega)
          · rw [show stripJunkRev (a :: b :: rr) = a :: b :: rr from by
              simp [stripJunkRev, hp, hj]]
            exact ⟨Bool.eq_false_iff.mpr hp, Bool.eq_false_iff.mpr hj⟩

/-- After stripping, no junk token remains at the front. -/
theorem stripJunkRev_noJunkFront (l : List Char) : noJunkFront (stripJunkRev l) :=
  stripJunkRev_noJunkFront_aux l.length l (Nat.le_refl _)

/-- A junk-free front is a fixed point of the stripping. -/
theorem stripJunkRev_fix {l : List Char} (h : noJunkFront l) : stripJunkRev l = l := by
  cases l with
  | nil => rfl
  | cons a r =>
    cases r with
    | nil =>
      simp only [noJunkFront] at h
      simp [stripJunkRev, h]
    | cons b rr =>
      simp only [noJunkFront] at h
      simp [stripJunkRev, h.1, h.2]

/-- Junk stripping is idempotent. -/
theorem stripJunkRev_stable (l : List Char) :
    stripJunkRev (stripJunkRev l) = stripJunkRev l :=
  stripJunkRev_fix (stripJunkRev_noJunkFront l)

/-- Junk stripping preserves the last element when the result is
nonempty. -/
theorem stripJunkRev_getLast_aux :
    ∀ (n : Nat) (l : List Char), l.length ≤ n →
      stripJunkRev l = [] ∨ (stripJunkRev l).getLast? = l.getLast? := by
  intro n
  induction n with
  | zero =>
    intro l h
    have : l = [] := List.eq_nil_of_length_eq_zero (Nat.le_zero.mp h)
    subst this
    left; rfl
  | succ n ih =>
    intro l h
    cases l with
    | nil => left; rfl
    | cons a r =>
      cases r with
      | nil =>
        by_cases hj : junkChar a = true
        · left; simp [stripJunkRev, hj]
        · right; simp [stripJunkRev, hj]
      | cons b rr =>
        by_cases hp : junkPairRev a b = true
        · rw [show stripJunkRev (a :: b :: rr) = stripJunkRev rr from by
            simp [stripJunkRev, hp]]
          rcases ih rr (by simp at h ⊢; omega) with hnil | hlast
          · left; exact hnil
          · by_cases hrr : rr = []
            · subst hrr
              left
              rfl
            · right
              rw [hlast, List.getLast?_cons_cons]
              cases rr with
              | nil => exact absurd rfl hrr
              | cons c cc => rw [List.getLast?_cons_cons]
        · by_cases hj : junkChar a = true
          · rw [show stripJunkRev (a :: b :: rr) = stripJunkRev (b :: rr) from by
              simp [stripJunkRev, hp, hj]]
            rcases ih (b :: rr) (by simp at h ⊢; omega) with hnil | hlast
            · left; exact hnil
            · right
              rw [hlast, List.getLast?_cons_cons]
          · right
            rw [show stripJunkRev (a :: b :: rr) = a :: b :: rr from by
              simp [stripJunkRev, hp, hj]]

/-- The head surviving a dropWhile fails the predicate. -/
theorem head_dropWhile_not (p : Char → Bool) (l : List Char) {c : Char}
    (h : (l.dropWhile p).head? = some c) : p c = false := by
  induction l with
  | nil => simp at h
  | cons a r ih =>
    rw [List.dropWhile_cons] at h
    by_cases hp : p a = true
    · rw [if_pos hp] at h
      exact ih h
    · rw [if_neg hp] at h
      simp at h
      subst h
      exact Bool.eq_false_iff.mpr hp

/-- A list whose head fails the predicate is untouched by dropWhile. -/
theorem dropWhile_eq_self_of_head {p : Char → Bool} {z : List Char}
    (h : ∀ c, z.head? = some c → p c = false) : z.dropWhile p = z := by
  cases z with
  | nil => rfl
  | cons a r =>
    rw [List.dropWhile_cons, if_neg]
    intro hp
    have hf := h a rfl
    rw [hf] at hp
    exact Bool.false_ne_true hp

/-- The cleaned URL carries no leading whitespace. -/
theorem cleanUrl_dropWhile_self (l : List Char) :
    (cleanUrl l).dropWhile pyIsSpace = cleanUrl l := by
  have hc : cleanUrl l = (stripJunkRev ((l.dropWhile pyIsSpace).reverse)).reverse := by
    rw [cleanUrl_eq_dropWhile]
    rfl
  cases hsj : stripJunkRev ((l.dropWhile pyIsSpace).reverse) with
  | nil =>
    rw [hc, hsj]
    rfl
  | cons c cs =>
    apply dropWhile_eq_self_of_head
    intro c0 hc0
    rw [hc, List.head?_reverse] at hc0
    rcases stripJunkRev_getLast_aux ((l.dropWhile pyIsSpace).reverse).length
        ((l.dropWhile pyIsSpace).reverse) (Nat.le_refl _) with hnil | hlast
    · rw [hnil] at hsj
      exact absurd hsj (by simp)
    · rw [hlast] at hc0
      have hrev : ((l.dropWhile pyIsSpace).reverse).getLast? =
          (l.dropWhile pyIsSpace).head? := by
        rw [← List.head?_reverse, List.reverse_reverse]
      rw [hrev] at hc0
      exact head_dropWhile_not pyIsSpace l hc0

/-- The per-URL cleanup of helpers.py lines 124-127 is idempotent. -/
theorem cleanUrl_idem (l : List Char) : cleanUrl (cleanUrl l) = cleanUrl l := by
  rw [cleanUrl_eq_dropWhile (cleanUrl l), cleanUrl_dropWhile_self]
  rw [cleanUrl_eq_dropWhile l]
  unfold stripJunkSuffix
  rw [List.reverse_reverse, stripJunkRev_stable]

/-- Every link admitted by one step of the cleaning loop is a cleaning
fixed point and valid. -/
theorem collectStep_spec (acc : List (List Char)) (l : List Char)
    (h : ∀ u ∈ acc, cleanUrl u = u ∧ urlValid u = true) :
    ∀ u ∈ collectStep acc l, cleanUrl u = u ∧ urlValid u = true := by
  intro u hu
  simp only [collectStep] at hu
  split at hu
  · exact h u hu
  · split at hu
    · exact h u hu
    · split at hu
      · rename_i hcond
        rcases List.mem_append.mp hu with hin | hin
        · exact h u hin
        · have hue : u = cleanUrl l := by simpa using hin
          subst hue
          exact ⟨cleanUrl_idem l, hcond.1⟩
      · exact h u hu

/-- Every link produced by the cleaning loop is a cleaning fixed point
and valid. -/
theorem collectClean_spec (raws : List (List Char)) :
    ∀ u ∈ collectCleanLinks raws, cleanUrl u = u ∧ urlValid u = true := by
  unfold collectCleanLinks
  suffices hgen : ∀ (rs : List (List Char)) (acc : List (List Char)),
      (∀ u ∈ acc, cleanUrl u = u ∧ urlValid u = true) →
      ∀ u ∈ rs.foldl collectStep acc, cleanUrl u = u ∧ urlValid u = true by
    exact hgen raws [] (by intro u hu; cases hu)
  intro rs
  induction rs with
  | nil =>
    intro acc hacc u hu
    exact hacc u hu
  | cons x xs ih =>
    intro acc hacc u hu
    exact ih (collectStep acc x) (collectStep_spec acc x hacc) u hu

/-- C8 (amended): full re-extraction is not idempotent on produced
links (see the counterexample), but the cleaning and validation are:
every link produced by parse_agent_observation is a fixed point of the
URL cleanup and passes scheme+netloc validation, so re-running the
cleaning and validation over a produced link list mutates nothing. -/
theorem extracted_links_clean_stable (obs : String) (u : String)
    (hu : u ∈ (parse_agent_observation false obs).2) :
    String.mk (cleanUrl u.data) = u ∧ urlValid u.data = true := by
  have hu' : u ∈ (collectCleanLinks (extractRawLinks obs.data)).map String.mk := hu
  rcases List.mem_map.mp hu' with ⟨l, hl, hlu⟩
  have hspec := collectClean_spec (extractRawLinks obs.data) l hl
  subst hlu
  constructor
  · show String.mk (cleanUrl l) = String.mk l
    rw [hspec.1]
  · exact hspec.2

/-- C8 witness: a link extracted from a concrete observation is a
cleaning fixed point and valid. -/
theorem extracted_links_clean_stable_witness :
    String.mk (cleanUrl (("https://a.com/x").data)) = "https://a.com/x" ∧
    urlValid (("https://a.com/x").data) = true :=
  extracted_links_clean_stable ("텍스트 https://a.com/x 입니다") ("https://a.com/x")
    (by decide)

/-- Under ready components and a non-NO_SEARCH decision the pipeline
takes the search path (the structural fallback at pipeline.py lines
664-695 is unreachable: the first guard already checked all of its
components). -/
theorem run_pipeline_eq_searchPath (q : String) (comps : Components) (o : Oracles)
    (m0 : List Msg) (hcr : compsReady comps = true)
    (hd : decisionOf (o.decideCall q) ≠ "NO_SEARCH") :
    run_pipeline q comps o m0 = searchPathRun q comps o m0 := by
  unfold run_pipeline
  have hcr' := hcr
  simp only [compsReady, Bool.and_eq_true] at hcr'
  obtain ⟨⟨⟨⟨⟨⟨⟨⟨h1, h2⟩, h3⟩, h4⟩, h5⟩, h6⟩, h7⟩, h8⟩, h9⟩ := hcr'
  rw [if_pos hcr, if_neg hd, if_pos (by simp [h4, h5, h6, h7, h8])]

/-- C9 counterexample: in a concrete search-path run the trace shows
refinement, engine selection and the agent run all happening before the
user message reaches the conversation memory (pipeline.py appends the
user message only at line 799, after the agent call at line 747),
refuting the claimed ordering. -/
theorem user_message_after_agent_cex :
    (run_pipeline ("질의") compsAll baseOracles []).events =
      [Ev.decideE, Ev.refineE, Ev.chooseE, Ev.agentE, Ev.addUserE, Ev.addAiE] ∧
    beforeIn Ev.agentE Ev.addUserE
      (run_pipeline ("질의") compsAll baseOracles []).events = true ∧
    beforeIn Ev.addUserE Ev.agentE
      (run_pipeline ("질의") compsAll baseOracles []).events = false := by
  refine ⟨?_, ?_, ?_⟩ <;> decide

/-- C9 (amended): on the search path the user message is appended to
memory immediately after the agent stage completes (so the agent always
runs while the turn's user message is still absent), and the assistant
message holding the final answer-with-sources is appended at the end of
the turn, leaving memory extended by exactly the user/assistant pair. -/
theorem memory_append_order_amended (q : String) (comps : Components) (o : Oracles)
    (m0 : List Msg) (hcr : compsReady comps = true)
    (hd : decisionOf (o.decideCall q) ≠ "NO_SEARCH")
    (hm : o.memAddAiRaises = false) :
    (run_pipeline q comps o m0).events =
      [Ev.decideE, Ev.refineE, Ev.chooseE, Ev.agentE, Ev.addUserE, Ev.addAiE] ∧
    beforeIn Ev.agentE Ev.addUserE (run_pipeline q comps o m0).events = true ∧
    beforeIn Ev.addUserE Ev.addAiE (run_pipeline q comps o m0).events = true ∧
    (run_pipeline q comps o m0).mem =
      m0 ++ [Msg.user q, Msg.ai (run_pipeline q comps o m0).answer] := by
  rw [run_pipeline_eq_searchPath q comps o m0 hcr hd]
  have hni : ¬(o.memAddAiRaises = true) := by
    rw [hm]
    exact Bool.false_ne_true
  simp only [searchPathRun]
  rw [if_neg hni]
  refine ⟨rfl, ?_, ?_, ?_⟩
  · show beforeIn Ev.agentE Ev.addUserE
        [Ev.decideE, Ev.refineE, Ev.chooseE, Ev.agentE, Ev.addUserE, Ev.addAiE] = true
    decide
  · show beforeIn Ev.addUserE Ev.addAiE
        [Ev.decideE, Ev.refineE, Ev.chooseE, Ev.agentE, Ev.addUserE, Ev.addAiE] = true
    decide
  · simp

/-- C9 witness: a concrete amended-ordering run. -/
theorem memory_append_order_amended_witness :
    (run_pipeline ("오늘 환율") compsAll baseOracles []).events =
      [Ev.decideE, Ev.refineE, Ev.chooseE, Ev.agentE, Ev.addUserE, Ev.addAiE] ∧
    beforeIn Ev.agentE Ev.addUserE
      (run_pipeline ("오늘 환율") compsAll baseOracles []).events = true ∧
    beforeIn Ev.addUserE Ev.addAiE
      (run_pipeline ("오늘 환율") compsAll baseOracles []).events = true ∧
    (run_pipeline ("오늘 환율") compsAll baseOracles []).mem =
      [] ++ [Msg.user ("오늘 환율"),
        Msg.ai ((run_pipeline ("오늘 환율") compsAll baseOracles []).answer)] :=
  memory_append_order_amended ("오늘 환율") compsAll baseOracles [] (by decide)
    (by decide) rfl

/-- String append is associative. -/
theorem strAppend_assoc (a b c : String) : a ++ b ++ c = a ++ (b ++ c) := by
  cases a with
  | mk la =>
    cases b with
    | mk lb =>
      cases c with
      | mk lc =>
        show String.mk (la ++ lb ++ lc) = String.mk (la ++ (lb ++ lc))
        rw [List.append_assoc]

/-- Appending the empty string changes nothing. -/
theorem strAppend_empty (s : String) : s ++ "" = s := by
  cases s with
  | mk l =>
    show String.mk (l ++ []) = String.mk l
    rw [List.append_nil]

/-- The link attachment of pipeline.py lines 894-910 equals the body
followed by a suffix that is a function of the link list alone. -/
theorem attachSourceLinks_eq (body : String) (links : List String) :
    attachSourceLinks body links = body ++ sourcesSuffix links := by
  simp only [attachSourceLinks, sourcesSuffix]
  split
  · split
    · rename_i h2
      rw [if_neg (by simpa using h2)]
      exact strAppend_assoc body _ _
    · rename_i h2
      rw [if_pos (by simpa using h2)]
      rw [strAppend_empty]
  · rename_i h1
    have hle : links = [] := by simpa using h1
    subst hle
    rw [if_pos (by rfl)]
    rw [strAppend_empty]

/-- The search-path answer is the fact-checked body plus the sources
suffix of the most recent retrieval-tool step's links. -/
theorem searchPathRun_answer (q : String) (comps : Components) (o : Oracles)
    (m0 : List Msg) :
    (searchPathRun q comps o m0).answer =
      attachSourceLinks (searchAnswerBody q comps o m0) (searchSourceLinks q o) := by
  simp only [searchPathRun]
  split <;> rfl

/-- The newest wellformed retrieval-tool step wins the reversed walk. -/
theorem findLastToolObs_snoc (steps : List AgentStep) (name obs : String)
    (links : List String) (hname : name ∈ toolNames) :
    findLastToolObs (steps ++ [AgentStep.mk (some name) (ObsVal.pair obs links)]) =
      some (obs, links) := by
  have hc : toolNames.contains name = true := by simpa using hname
  unfold findLastToolObs
  rw [List.reverse_append]
  simp [walkRev, toolObsOf, hc, hname]

/-- The reversed walk over steps that all fail the tool test finds
nothing. -/
theorem walkRev_none (l : List AgentStep) (h : ∀ st ∈ l, toolObsOf st = none) :
    walkRev l = none := by
  induction l with
  | nil => rfl
  | cons a r ih =>
    unfold walkRev
    rw [h a (by simp)]
    exact ih (fun st hst => h st (by simp [hst]))

/-- A trace without a wellformed retrieval-tool step yields no links. -/
theorem findLastToolObs_none (steps : List AgentStep)
    (h : ∀ st ∈ steps, toolObsOf st = none) : findLastToolObs steps = none := by
  unfold findLastToolObs
  exact walkRev_none steps.reverse (fun st hst => h st (by simpa using hst))

/-- C10: the trailing sources block of the final answer is built
exclusively from the link list of the most recent wellformed
retrieval-tool step of the agent trace: the answer equals the
fact-checked body plus a suffix that is a function of those trace links
alone (the link list parse_agent_observation extracts from the agent
final free text is discarded: stage 5 keeps only the content
component); the newest wellformed retrieval-tool step wins the reversed
walk; a trace without such a step yields no links, links are empty when
the agent raises, and an empty link list attaches nothing, so such an
answer carries no appended sources block. -/
theorem sources_block_from_last_tool_step :
    (∀ (q : String) (comps : Components) (o : Oracles) (m0 : List Msg),
      compsReady comps = true → decisionOf (o.decideCall q) ≠ "NO_SEARCH" →
      (run_pipeline q comps o m0).answer =
        searchAnswerBody q comps o m0 ++ sourcesSuffix (searchSourceLinks q o)) ∧
    (∀ r : AgentRes, (agentStageOf (AgentCall.ok r)).2.2 =
      (match findLastToolObs (r.steps.getD []) with
       | some w => w.2
       | none => [])) ∧
    (∀ e : String, (agentStageOf (AgentCall.raises e)).2.2 = []) ∧
    (∀ (steps : List AgentStep) (name obs : String) (links : List String),
      name ∈ toolNames →
      findLastToolObs (steps ++ [AgentStep.mk (some name) (ObsVal.pair obs links)]) =
        some (obs, links)) ∧
    (∀ steps : List AgentStep, (∀ st ∈ steps, toolObsOf st = none) →
      findLastToolObs steps = none) ∧
    sourcesSuffix [] = "" ∧
    (∀ body : String, attachSourceLinks body [] = body) := by
  refine ⟨?_, fun r => rfl, fun e => rfl, findLastToolObs_snoc, findLastToolObs_none,
    rfl, fun body => rfl⟩
  intro q comps o m0 hcr hd
  rw [run_pipeline_eq_searchPath q comps o m0 hcr hd, searchPathRun_answer,
    attachSourceLinks_eq]

/-- C10 witness: a concrete search-path run. -/
theorem sources_block_from_last_tool_step_witness :
    (run_pipeline ("질의어") compsAll baseOracles []).answer =
      searchAnswerBody ("질의어") compsAll baseOracles [] ++
        sourcesSuffix (searchSourceLinks ("질의어") baseOracles) :=
  sources_block_from_last_tool_step.1 ("질의어") compsAll baseOracles [] (by decide)
    (by decide)

/-- A raised page fetch drops the item. -/
theorem extract_item_text_raises (item : RawItem) (c : ItemCalls)
    (h : c.extractTextRes = Except.error ()) :
    extract_and_process_item item c = (none, none) := by
  cases hlink : item.link with
  | none => simp [extract_and_process_item, hlink]
  | some l => simp [extract_and_process_item, hlink, h]

/-- A raised main-text extraction drops the item. -/
theorem extract_item_main_raises (item : RawItem) (c : ItemCalls)
    (h : c.extractMainRes = Except.error ()) :
    extract_and_process_item item c = (none, none) := by
  cases hlink : item.link with
  | none => simp [extract_and_process_item, hlink]
  | some l =>
    cases hext : c.extractTextRes with
    | error e => simp [extract_and_process_item, hlink, hext]
    | ok html => simp [extract_and_process_item, hlink, hext, h]

/-- A raised preprocessing call drops the item. -/
theorem extract_item_preprocess_raises (item : RawItem) (c : ItemCalls)
    (h : c.preprocessRes = Except.error ()) :
    extract_and_process_item item c = (none, none) := by
  cases hlink : item.link with
  | none => simp [extract_and_process_item, hlink]
  | some l =>
    cases hext : c.extractTextRes with
    | error e => simp [extract_and_process_item, hlink, hext]
    | ok html =>
      cases hmain : c.extractMainRes with
      | error e => simp [extract_and_process_item, hlink, hext, hmain]
      | ok mt => simp [extract_and_process_item, hlink, hext, hmain, h]

/-- All-none results carry no truthy texts. -/
theorem truthyFirsts_none (l : List (RawItem × ItemCalls)) :
    truthyFirsts (l.map (fun _ =>
      ((none : Option String), (none : Option String)))) = [] := by
  induction l with
  | nil => rfl
  | cons x xs ih => exact ih

/-- All-none results carry no truthy links. -/
theorem truthySeconds_none (l : List (RawItem × ItemCalls)) :
    truthySeconds (l.map (fun _ =>
      ((none : Option String), (none : Option String)))) = [] := by
  induction l with
  | nil => rfl
  | cons x xs ih => exact ih

/-- A failed item contributes nothing to the gathered results. -/
theorem adapterGather_drop (pre post : List (RawItem × ItemCalls))
    (fi : RawItem × ItemCalls)
    (hfail : extract_and_process_item fi.1 fi.2 = (none, none)) :
    adapterGather (pre ++ fi :: post) = adapterGather (pre ++ post) := by
  simp [adapterGather, truthyFirsts, truthySeconds, hfail, List.filterMap_append,
    List.filterMap_cons]

/-- When every item fails, the gathered result is the fixed no-results
string with no links. -/
theorem adapterGather_all_failed (itemsC : List (RawItem × ItemCalls))
    (h : ∀ p ∈ itemsC, extract_and_process_item p.1 p.2 = (none, none)) :
    adapterGather itemsC = ("관련 내용을 찾거나 추출하지 못했습니다.", []) := by
  have hmap : itemsC.map (fun p => extract_and_process_item p.1 p.2) =
      itemsC.map (fun _ => ((none : Option String), (none : Option String))) := by
    apply List.map_congr_left
    intro p hp
    exact h p hp
  simp only [adapterGather]
  rw [hmap, truthyFirsts_none, truthySeconds_none]
  rfl

/-- The SerpAPI organic path reduces to the filtered gather. -/
theorem run_serpapi_organic (handled : String) (itemsC : List (RawItem × ItemCalls))
    (hg : listStartsWith handled.data (("웹 검색").data) = true)
    (hnr : handled ≠ "검색 결과 없음.") :
    run_serpapi_async true true (SerpCall.ok handled (some itemsC)) =
      (if ((itemsC.map serpNormItem).filter
          (fun p => p.1.link.getD ("") ≠ "")).isEmpty = true then
        ("검색 결과 없음.", [])
      else adapterGather ((itemsC.map serpNormItem).filter
          (fun p => p.1.link.getD ("") ≠ ""))) := by
  have h0 : run_serpapi_async true true (SerpCall.ok handled (some itemsC)) =
      (if (!listStartsWith handled.data (("웹 검색").data) &&
          !decide (handled = "검색 결과 없음.")) = true then (handled, [])
      else if handled = "검색 결과 없음." then (handled, [])
      else if ((itemsC.map serpNormItem).filter
          (fun p => p.1.link.getD ("") ≠ "")).isEmpty = true then
        ("검색 결과 없음.", [])
      else adapterGather ((itemsC.map serpNormItem).filter
          (fun p => p.1.link.getD ("") ≠ ""))) := rfl
  rw [h0, if_neg (by simp [hg]), if_neg hnr]

/-- A nonempty list is not isEmpty. -/
theorem isEmpty_false_of_ne {α : Type} {l : List α} (h : l ≠ []) :
    l.isEmpty = false := by
  cases l with
  | nil => exact absurd rfl h
  | cons a r => rfl

/-- C5: fault isolation of the retrieval adapters.  Per item: a raised
fetch, main-text extraction or preprocessing call yields (none, none).
Per batch: a failed item is dropped without changing the processing of
the other items (stated for the Naver and CES adapters on their item
lists and for the shared gather used by the SerpAPI organic path); when
every item fails, the fixed no-results string with an empty link list
is returned; and the adapter boundary catches raised search calls,
returning the embedded-error tuple — every path returns a
(string, link-list) pair, which the Lean return types witness. -/
theorem retrieval_adapters_fault_isolation :
    (∀ (item : RawItem) (c : ItemCalls), c.extractTextRes = Except.error () →
      extract_and_process_item item c = (none, none)) ∧
    (∀ (item : RawItem) (c : ItemCalls), c.extractMainRes = Except.error () →
      extract_and_process_item item c = (none, none)) ∧
    (∀ (item : RawItem) (c : ItemCalls), c.preprocessRes = Except.error () →
      extract_and_process_item item c = (none, none)) ∧
    (∀ (pre post : List (RawItem × ItemCalls)) (fi : RawItem × ItemCalls),
      extract_and_process_item fi.1 fi.2 = (none, none) → pre ++ post ≠ [] →
      run_naver_async true true (Except.ok (pre ++ fi :: post)) =
        run_naver_async true true (Except.ok (pre ++ post))) ∧
    (∀ (pre post : List (RawItem × ItemCalls)) (fi : RawItem × ItemCalls),
      extract_and_process_item fi.1 fi.2 = (none, none) → pre ++ post ≠ [] →
      run_ces_async true true (Except.ok (pre ++ fi :: post)) =
        run_ces_async true true (Except.ok (pre ++ post))) ∧
    (∀ (pre post : List (RawItem × ItemCalls)) (fi : RawItem × ItemCalls),
      extract_and_process_item fi.1 fi.2 = (none, none) →
      adapterGather (pre ++ fi :: post) = adapterGather (pre ++ post)) ∧
    (∀ itemsC : List (RawItem × ItemCalls), itemsC ≠ [] →
      (∀ p ∈ itemsC, extract_and_process_item p.1 p.2 = (none, none)) →
      run_naver_async true true (Except.ok itemsC) =
        ("관련 내용을 찾거나 추출하지 못했습니다.", [])) ∧
    (∀ itemsC : List (RawItem × ItemCalls), itemsC ≠ [] →
      (∀ p ∈ itemsC, extract_and_process_item p.1 p.2 = (none, none)) →
      run_ces_async true true (Except.ok itemsC) =
        ("관련 내용을 찾거나 추출하지 못했습니다.", [])) ∧
    (∀ (handled : String) (itemsC : List (RawItem × ItemCalls)),
      listStartsWith handled.data (("웹 검색").data) = true →
      ((itemsC.map serpNormItem).filter (fun p => p.1.link.getD ("") ≠ "")) ≠ [] →
      (∀ p ∈ (itemsC.map serpNormItem).filter (fun p => p.1.link.getD ("") ≠ ""),
        extract_and_process_item p.1 p.2 = (none, none)) →
      run_serpapi_async true true (SerpCall.ok handled (some itemsC)) =
        ("관련 내용을 찾거나 추출하지 못했습니다.", [])) ∧
    (∀ e : String, run_naver_async true true (Except.error e) =
      ("네이버 검색 처리 중 오류 발생: " ++ e, [])) ∧
    (∀ e : String, run_ces_async true true (Except.error e) =
      ("CES 검색 처리 중 오류 발생: " ++ e, [])) ∧
    (∀ e : String, run_serpapi_async true true (SerpCall.searchRaises e) =
      ("SerpAPI 검색 처리 중 오류 발생: " ++ e, [])) ∧
    (∀ e : String, run_serpapi_async true true (SerpCall.handleRaises e) =
      ("SerpAPI 검색 처리 중 오류 발생: " ++ e, [])) ∧
    (∀ (handled : String) (organic : Option (List (RawItem × ItemCalls))),
      listStartsWith handled.data (("웹 검색").data) = false →
      run_serpapi_async true true (SerpCall.ok handled organic) = (handled, [])) := by
  refine ⟨extract_item_text_raises, extract_item_main_raises,
    extract_item_preprocess_raises, ?_, ?_, adapterGather_drop, ?_, ?_, ?_,
    fun e => rfl, fun e => rfl, fun e => rfl, fun e => rfl, ?_⟩
  · intro pre post fi hfail hne
    have h1 : (pre ++ fi :: post).isEmpty = false :=
      isEmpty_false_of_ne (by simp)
    have h2 : (pre ++ post).isEmpty = false := isEmpty_false_of_ne hne
    simp [run_naver_async, h1, h2, adapterGather_drop pre post fi hfail]
  · intro pre post fi hfail hne
    have h1 : (pre ++ fi :: post).isEmpty = false :=
      isEmpty_false_of_ne (by simp)
    have h2 : (pre ++ post).isEmpty = false := isEmpty_false_of_ne hne
    simp [run_ces_async, h1, h2, adapterGather_drop pre post fi hfail]
  · intro itemsC hne hall
    have h1 : itemsC.isEmpty = false := isEmpty_false_of_ne hne
    simp [run_naver_async, h1, adapterGather_all_failed itemsC hall]
  · intro itemsC hne hall
    have h1 : itemsC.isEmpty = false := isEmpty_false_of_ne hne
    simp [run_ces_async, h1, adapterGather_all_failed itemsC hall]
  · intro handled itemsC hg hfne hall
    have hnr : handled ≠ "검색 결과 없음." := by
      intro hh
      rw [hh] at hg
      exact absurd hg (by decide)
    rw [run_serpapi_organic handled itemsC hg hnr,
      if_neg (fun hh => Bool.false_ne_true ((isEmpty_false_of_ne hfne).symm.trans hh))]
    exact adapterGather_all_failed _ hall
  · intro handled organic hg
    by_cases hnr : handled = "검색 결과 없음."
    · simp [run_serpapi_async, hg, hnr]
    · simp [run_serpapi_async, hg, hnr]

/-- C5 witness: one concrete failing item is dropped next to one
succeeding item. -/
theorem retrieval_adapters_fault_isolation_witness :
    run_naver_async true true (Except.ok
      [(RawItem.mk (some ("기사")) (some ("https://n.com/1")),
        ItemCalls.mk (Except.error ()) (Except.ok ("본문")) (Except.ok ("본문"))),
       (RawItem.mk (some ("기사2")) (some ("https://n.com/2")),
        ItemCalls.mk (Except.ok ("<html>")) (Except.ok ("본문")) (Except.ok ("본문")))]) =
    run_naver_async true true (Except.ok
      [(RawItem.mk (some ("기사2")) (some ("https://n.com/2")),
        ItemCalls.mk (Except.ok ("<html>")) (Except.ok ("본문")) (Except.ok ("본문")))]) :=
  retrieval_adapters_fault_isolation.2.2.2.1 []
    [(RawItem.mk (some ("기사2")) (some ("https://n.com/2")),
      ItemCalls.mk (Except.ok ("<html>")) (Except.ok ("본문")) (Except.ok ("본문")))]
    (RawItem.mk (some ("기사")) (some ("https://n.com/1")),
      ItemCalls.mk (Except.error ()) (Except.ok ("본문")) (Except.ok ("본문")))
    (extract_item_text_raises _ _ rfl) (by simp)
